import Mathlib

/-!
Verification development for `linear_operator/operators/kernel_linear_operator.py`
(`KernelLinearOperator`): a lazily evaluated kernel (Gram) matrix defined by a
pairwise covariance function over two point sets.

Two shallow embeddings are used:

* a value-level, batch-free model (`KernelLO` namespace): point sets are `List α`,
  the covariance function is an abstract `List α → List α → τ → β → List (List ℚ)`,
  and the operator's methods are transcribed from the source;
* a shape-level model (`KernelLO.ShapeModel`): tensors carry a `List Nat` shape and
  an indexing function, so the constructor's broadcasting/expansion behaviour
  (source `__init__`, lines 103-174) can be stated exactly.
-/

namespace KernelLO

/-- A `KernelLinearOperator` with the batch dimensions stripped away:
`x1`/`x2` are the row/column point sets (source attributes `self.x1`, `self.x2`),
`covar_func` the covariance function, `tensor_params`/`nontensor_params` the two
parameter mappings, and `num_outputs_per_input` the output-multiplicity pair. -/
structure KernelOp (α τ β : Type) where
  x1 : List α
  x2 : List α
  covar_func : List α → List α → τ → β → List (List ℚ)
  tensor_params : τ
  nontensor_params : β
  num_outputs_per_input : Nat × Nat

/-- Entry `(i, j)` of a matrix given as a list of rows (out of range reads `0`). -/
def matGet (m : List (List ℚ)) (i j : Nat) : ℚ :=
  (m.getD i []).getD j 0

/-- Source lines 188-191 (`covar_mat`): evaluate the covariance function on the
full row and column sets together with all parameters. -/
def KernelOp.covar_mat (K : KernelOp α τ β) : List (List ℚ) :=
  K.covar_func K.x1 K.x2 K.tensor_params K.nontensor_params

/-- Source lines 176-186 (`_diagonal`): move each of the `M` points into its own
synthetic leading batch slot (`x1.unsqueeze(0).transpose(0, -2)` turns `(M, D)`
into `(M, 1, D)`), evaluate the covariance function once across that synthetic
batch of 1-point-vs-1-point problems, and flatten the resulting `(M, 1, 1)`
stack back into a vector.  The batched evaluation over the synthetic leading
dimension is modelled by mapping the covariance function over the zipped point
pairs (the code asserts the per-slot result is `1 x 1` and reads entry `[0, 0]`). -/
def KernelOp._diagonal (K : KernelOp α τ β) : List ℚ :=
  (K.x1.zip K.x2).map
    (fun p => matGet (K.covar_func [p.1] [p.2] K.tensor_params K.nontensor_params) 0 0)

/-- Source lines 193-199 (`_get_indices`): gather point `i` of `x1` and point `j`
of `x2` (`self.x1[..., row_index]`, then `unsqueeze(-2)` makes each a 1-point
set), evaluate the covariance function on the two singleton sets, and read the
`[..., 0, 0]` entry of the `1 x 1` result. -/
def KernelOp._get_indices [Inhabited α] (K : KernelOp α τ β) (i j : Nat) : ℚ :=
  matGet (K.covar_func [K.x1.getD i default] [K.x2.getD j default]
    K.tensor_params K.nontensor_params) 0 0

/-- Source lines 333-341 (`_size`), batch part dropped: the logical matrix is
`(M * num_outs_per_in_rows) x (N * num_outs_per_in_cols)`. -/
def KernelOp._size (K : KernelOp α τ β) : Nat × Nat :=
  (K.x1.length * K.num_outputs_per_input.1, K.x2.length * K.num_outputs_per_input.2)

/-- Source lines 343-351 (`_transpose_nonbatch`): rebuild the operator with `x2`
and `x1` swapped; `covar_func`, both parameter mappings and (note!) the
`num_outputs_per_input` pair are passed through unchanged. -/
def KernelOp._transpose_nonbatch (K : KernelOp α τ β) : KernelOp α τ β :=
  { x1 := K.x2
    x2 := K.x1
    covar_func := K.covar_func
    tensor_params := K.tensor_params
    nontensor_params := K.nontensor_params
    num_outputs_per_input := K.num_outputs_per_input }

/-- The covariance function `f` computes pairwise covariances of a kernel
`k` : entry `(i, j)` of `f X Y params` is `k X_i Y_j` whenever `i`, `j` are in
range.  This is the external contract assumed of `covar_func` by the spec. -/
def PairwiseCovar [Inhabited α] (f : List α → List α → τ → β → List (List ℚ))
    (k : α → α → ℚ) : Prop :=
  ∀ (X Y : List α) (tp : τ) (ntp : β) (i j : Nat), i < X.length → j < Y.length →
    matGet (f X Y tp ntp) i j = k (X.getD i default) (Y.getD j default)

/-- A Python exception, as far as the `_getitem` logic distinguishes them. -/
inductive PyErr where
  | typeError (msg : String)
  | runtimeError (msg : String)
  | indexError (msg : String)
deriving DecidableEq

/-- A Python `slice(start, stop, step)` with optional (nullable) components.
Negative bounds do not occur in any behaviour the claims exercise, so the
components are modelled as natural numbers. -/
structure Slice where
  start : Option Nat
  stop : Option Nat
  step : Option Nat
deriving DecidableEq

/-- An index supplied to `_getitem`: either a slice or a tensor-valued
(equivalently, any non-slice) index holding explicit positions. -/
inductive IndexArg where
  | slice (s : Slice)
  | tensorIdx (idxs : List Nat)
deriving DecidableEq

def IndexArg.isSlice : IndexArg → Bool
  | IndexArg.slice _ => true
  | IndexArg.tensorIdx _ => false

/-- The positions a slice selects from a dimension of length `len`
(Python `slice.indices(len)` for non-negative bounds). -/
def pySliceIdx (len : Nat) (s : Slice) : List Nat :=
  let st := min (s.start.getD 0) len
  let en := min (s.stop.getD len) len
  let sp := max (s.step.getD 1) 1
  (List.range ((en - st + sp - 1) / sp)).map (fun k => st + k * sp)

/-- Applying an index argument to the count dimension of a point set. -/
def applyIndexArg [Inhabited α] (l : List α) : IndexArg → List α
  | IndexArg.slice s => (pySliceIdx l.length s).map (fun i => l.getD i default)
  | IndexArg.tensorIdx idxs => idxs.map (fun i => l.getD i default)

/-- The length of the result of applying a (slice) batch index to one of the
size-1 batch dimensions created by `expand(*([1] * len(batch_indices)), ...)`
(source lines 275 and 292). -/
def sizeOneDimLen : IndexArg → Nat
  | IndexArg.slice s => (pySliceIdx 1 s).length
  | IndexArg.tensorIdx idxs => idxs.length

/-- The successful outcomes of `_getitem`: either a new sub-`KernelOperator`
built directly over re-sliced point sets (with the batch shape the fallback
path's size-1 expansion produced, `[]` on the direct path), or a value obtained
by delegating the index operation to the dense materialization `covar_mat`. -/
inductive GetitemOk (α τ β ρ : Type) where
  | subOperator (batchShape : List Nat) (K : KernelOp α τ β)
  | denseResult (r : ρ)

/-- Source lines 260-309: the slicing part of `_getitem`, reached after the
multi-output preprocessing.  The point sets are modelled batch-free (rank-2
tensors), so `self.x1[(*batch_indices, row_index, :)]` raises `IndexError`
exactly when `batch_indices` is non-empty — which is the fallback this code
handles.  In the fallback, a non-slice batch index raises `RuntimeError`
(source lines 270-274 and 287-291); otherwise the point set is expanded with
one size-1 dimension per batch index and re-indexed.  NOTE: on this path the
source indexes `x2` with `row_index` (line 293: `x2[(*batch_indices, row_index,
dim_index)]`), although the comment above it (line 278) says `col_index`. -/
def getitemMain [Inhabited α] (K : KernelOp α τ β)
    (row_index col_index : IndexArg) (batch_indices : List IndexArg) :
    Except PyErr (GetitemOk α τ β ρ) :=
  if batch_indices.isEmpty then
    Except.ok (GetitemOk.subOperator []
      { K with x1 := applyIndexArg K.x1 row_index
               x2 := applyIndexArg K.x2 col_index })
  else if batch_indices.any (fun bi => !bi.isSlice) then
    Except.error (PyErr.runtimeError
      "Attempting to tensor index a non-batch matrix's batch dimensions.")
  else
    Except.ok (GetitemOk.subOperator (batch_indices.map sizeOneDimLen)
      { K with x1 := applyIndexArg K.x1 row_index
               x2 := applyIndexArg K.x2 row_index })

/-- Source lines 201-309 (`_getitem`).  `denseGetitem` stands for
`self.covar_mat._getitem(row_index, col_index, *batch_indices)` — evaluating
the covariance function on the full point sets and delegating the index
operation to the dense result; it is external (`LinearOperator` base class), so
it is abstract here, and a raised exception is an `Except.error`.

The multi-output branch (lines 207-258): non-slice indices go to the dense
fallback with a `TypeError` on failure; for slices, `row_step`/`col_step` are
first defaulted (`row_index.step if row_index.step is not None else 1`, lines
222-231) and then line 232 tests `if row_step is not None or col_step is not
None:` — the just-defaulted values are never `None`, so this test is always
true and every pair of slices takes the dense fallback; the bound-divisibility
test and the bound-dividing re-slicing (lines 239-258) are unreachable. -/
def KernelOp._getitem [Inhabited α] (K : KernelOp α τ β)
    (denseGetitem : IndexArg → IndexArg → List IndexArg → Except PyErr ρ)
    (row_index col_index : IndexArg) (batch_indices : List IndexArg) :
    Except PyErr (GetitemOk α τ β ρ) :=
  let nr := K.num_outputs_per_input.1
  let nc := K.num_outputs_per_input.2
  if nr ≠ 1 ∨ nc ≠ 1 then
    match row_index, col_index with
    | IndexArg.slice rs, IndexArg.slice cs =>
      let num_rows := K._size.1
      let num_cols := K._size.2
      let row_start : Option Nat := if rs.start.isSome then rs.start else some 0
      let row_end : Option Nat := if rs.stop.isSome then rs.stop else some num_rows
      let row_step : Option Nat := if rs.step.isSome then rs.step else some 1
      let col_start : Option Nat := if cs.start.isSome then cs.start else some 0
      let col_end : Option Nat := if cs.stop.isSome then cs.stop else some num_cols
      let col_step : Option Nat := if cs.step.isSome then cs.step else some 1
      if row_step.isSome ∨ col_step.isSome then
        match denseGetitem row_index col_index batch_indices with
        | Except.ok d => Except.ok (GetitemOk.denseResult d)
        | Except.error _ =>
          Except.error (PyErr.typeError "does not accept slices with steps.")
      else if row_start.getD 0 % nr ≠ 0 ∨ col_start.getD 0 % nc ≠ 0
          ∨ row_end.getD 0 % nr ≠ 0 ∨ col_end.getD 0 % nc ≠ 0 then
        match denseGetitem row_index col_index batch_indices with
        | Except.ok d => Except.ok (GetitemOk.denseResult d)
        | Except.error _ =>
          Except.error (PyErr.typeError "received an invalid slice.")
      else
        getitemMain K
          (IndexArg.slice ⟨some (row_start.getD 0 / nr), some (row_end.getD 0 / nr), none⟩)
          (IndexArg.slice ⟨some (col_start.getD 0 / nc), some (col_end.getD 0 / nc), none⟩)
          batch_indices
    | _, _ =>
      match denseGetitem row_index col_index batch_indices with
      | Except.ok d => Except.ok (GetitemOk.denseResult d)
      | Except.error _ =>
        Except.error (PyErr.typeError "does not accept non-slice indices.")
  else
    getitemMain K row_index col_index batch_indices

/-- A concrete covariance function used by the witnesses: the product kernel
`k(a, b) = a * b` computed pairwise over two lists of rationals. -/
def mulCovar : List ℚ → List ℚ → Unit → Unit → List (List ℚ) :=
  fun X Y _ _ => X.map (fun a => Y.map (fun b => a * b))

theorem mulCovar_pairwise : PairwiseCovar mulCovar (· * ·) := by
  intro X Y tp ntp i j hi hj
  have h1 : (X.map (fun a => Y.map (fun b => a * b))).getD i []
      = Y.map (fun b => X[i] * b) := by
    rw [List.getD_eq_getElem _ _ (by simpa using hi), List.getElem_map]
  unfold mulCovar matGet
  rw [h1, List.getD_eq_getElem _ _ (by simpa using hj), List.getElem_map,
    List.getD_eq_getElem _ _ hi, List.getD_eq_getElem _ _ hj]

/-- Modelled from the spec: the memoization utility (the `@cached` decorator used at
source lines 176 and 189 comes from `linear_operator/utils/memoize.py`, which is not
among the sources) — "Result is memoized per instance (computed at most once, pure
function of immutable state)".  An at-most-once cache cell: reading an empty cell
invokes `compute` and stores the result; reading a full cell returns the stored
value without recomputation. -/
def cachedAccess (compute : Unit → γ) : Option γ → γ × Option γ
  | none => (compute (), some (compute ()))
  | some v => (v, some v)

/-- Performs `n` consecutive reads of the cache cell and returns the list of values
handed out, the final cell state, and how many times `compute` was invoked. -/
def accessN (compute : Unit → γ) : Nat → Option γ → List γ × Option γ × Nat
  | 0, c => ([], c, 0)
  | n + 1, c =>
    let r := cachedAccess compute c
    let rest := accessN compute n r.2
    (r.1 :: rest.1, rest.2.1, (if c.isSome then 0 else 1) + rest.2.2)

theorem accessN_some (compute : Unit → γ) (v : γ) :
    ∀ n, accessN compute n (some v) = (List.replicate n v, some v, 0) := by
  intro n
  induction n with
  | zero => rfl
  | succ m ih => simp [accessN, cachedAccess, ih, List.replicate_succ]

/-- Claim C6: double transpose is behaviourally a no-op — `transpose(transpose(K))`
has the same size, the same diagonal and the same dense materialization as `K`. -/
theorem transpose_transpose_noop (K : KernelOp α τ β) :
    (K._transpose_nonbatch._transpose_nonbatch)._size = K._size ∧
    (K._transpose_nonbatch._transpose_nonbatch)._diagonal = K._diagonal ∧
    (K._transpose_nonbatch._transpose_nonbatch).covar_mat = K.covar_mat :=
  ⟨rfl, rfl, rfl⟩

/-- Claim C9: `_get_indices` interprets the row and column indices as direct
indices into the raw point sets, whatever the output multiplicity: for any
operator `K` (its `num_outputs_per_input` pair is left completely unconstrained)
whose covariance function computes the pairwise covariances of `k`,
`_get_indices i j` is the covariance of point `i` of the row set with point `j`
of the column set. -/
theorem get_indices_raw_points [Inhabited α] (K : KernelOp α τ β) (k : α → α → ℚ)
    (hpw : PairwiseCovar K.covar_func k) (i j : Nat)
    (hi : i < K.x1.length) (hj : j < K.x2.length) :
    K._get_indices i j = k (K.x1.getD i default) (K.x2.getD j default) := by
  have h := hpw [K.x1.getD i default] [K.x2.getD j default]
    K.tensor_params K.nontensor_params 0 0 (by simp) (by simp)
  simpa [KernelOp._get_indices] using h

/-- A multi-output operator (`num_outputs_per_input = (2, 3)`) over the product
kernel, used to witness Claim C9 at a non-unit multiplicity. -/
def K9 : KernelOp ℚ Unit Unit :=
  { x1 := [2, 3]
    x2 := [5, 7]
    covar_func := mulCovar
    tensor_params := ()
    nontensor_params := ()
    num_outputs_per_input := (2, 3) }

theorem get_indices_raw_points_witness :
    K9._get_indices 1 0 = 3 * 5 :=
  get_indices_raw_points K9 (· * ·) mulCovar_pairwise 1 0 (by decide) (by decide)

/-- An operator with asymmetric output multiplicity `(2, 1)`, `M = 3` row points
and `N = 4` column points: its logical size is `(6, 4)`. -/
def K2 : KernelOp ℚ Unit Unit :=
  { x1 := [1, 2, 3]
    x2 := [4, 5, 6, 7]
    covar_func := mulCovar
    tensor_params := ()
    nontensor_params := ()
    num_outputs_per_input := (2, 1) }

/-- Claim C2 (code bug): `_transpose_nonbatch` (source lines 343-351) passes
`num_outputs_per_input` through unchanged instead of reversing it.  On the
`(6, 4)`-sized operator `K2` the transpose keeps the pair `(2, 1)`, so its
logical size is `(8, 3)` rather than the `(4, 6)` that transposition (and the
method's own `"*batch M N" -> "*batch N M"` annotation) requires. -/
theorem transpose_keeps_multiplicity :
    K2._size = (6, 4) ∧
    K2._transpose_nonbatch.num_outputs_per_input = (2, 1) ∧
    K2._transpose_nonbatch.num_outputs_per_input
      ≠ (K2.num_outputs_per_input.2, K2.num_outputs_per_input.1) ∧
    K2._transpose_nonbatch._size = (8, 3) ∧
    K2._transpose_nonbatch._size ≠ (K2._size.2, K2._size.1) :=
  ⟨rfl, rfl, by decide, rfl, by decide⟩

/-- Claim C3: with unit output multiplicity and `M = N`, the diagonal computed by
the synthetic-batch trick of `_diagonal` agrees entry by entry with the diagonal
of the dense materialization `covar_mat`, and reading the memoized value any
number of times invokes the computation at most once, always returning
`_diagonal`. -/
theorem kernel_diag_correct [Inhabited α] (K : KernelOp α τ β) (k : α → α → ℚ)
    (hpw : PairwiseCovar K.covar_func k)
    (hmult : K.num_outputs_per_input = (1, 1))
    (hMN : K.x1.length = K.x2.length) :
    (∀ i, i < K.x1.length → K._diagonal.getD i 0 = matGet K.covar_mat i i) ∧
    (∀ n, (accessN (fun _ => K._diagonal) n none).2.2 ≤ 1 ∧
      ∀ v ∈ (accessN (fun _ => K._diagonal) n none).1, v = K._diagonal) := by
  constructor
  · intro i hi
    have hi2 : i < K.x2.length := hMN ▸ hi
    have hzlen : i < (K.x1.zip K.x2).length := by
      rw [List.length_zip]; omega
    have h1 : K._diagonal.getD i 0
        = matGet (K.covar_func [K.x1[i]] [K.x2[i]]
            K.tensor_params K.nontensor_params) 0 0 := by
      unfold KernelOp._diagonal
      rw [List.getD_eq_getElem _ _ (by simpa using hzlen), List.getElem_map,
        List.getElem_zip]
    have h2 := hpw [K.x1[i]] [K.x2[i]] K.tensor_params K.nontensor_params 0 0
      (by simp) (by simp)
    have h3 := hpw K.x1 K.x2 K.tensor_params K.nontensor_params i i hi hi2
    rw [List.getD_eq_getElem _ _ hi, List.getD_eq_getElem _ _ hi2] at h3
    rw [h1, h2, KernelOp.covar_mat, h3]
    simp
  · intro n
    cases n with
    | zero => exact ⟨by simp [accessN], by simp [accessN]⟩
    | succ m =>
      constructor
      · simp [accessN, cachedAccess, accessN_some]
      · intro v hv
        simp only [accessN, cachedAccess, accessN_some, List.mem_cons,
          List.eq_of_mem_replicate] at hv
        rcases hv with h | h
        · exact h
        · exact List.eq_of_mem_replicate h

/-- A multi-output operator (`num_outputs_per_input = (2, 2)`, `M = N = 2`, so
the logical size is `4 x 4`) over the product kernel. -/
def K1 : KernelOp ℚ Unit Unit :=
  { x1 := [1, 2]
    x2 := [1, 2]
    covar_func := mulCovar
    tensor_params := ()
    nontensor_params := ()
    num_outputs_per_input := (2, 2) }

/-- The slice `[0:4]` — plain, no step, bounds `0` and `4` divisible by the
multiplicity `2` of `K1`. -/
def slice04 : IndexArg := IndexArg.slice ⟨some 0, some 4, none⟩

/-- Claim C1 (code bug): on `K1` (multiplicity `(2, 2)`, logical size `4 x 4`),
indexing with the plain step-free slices `[0:4], [0:4]` — whose bounds are
exactly divisible by both multiplicities — does NOT construct a sliced operator
over re-sliced point sets: the always-true step test at source line 232 sends
it to the dense `covar_mat` delegation, so the result is whatever the dense
path produces (first conjunct), and when the dense path fails the whole call
fails (second conjunct) — which could not happen if the dense matrix were not
consulted. -/
theorem multiout_divisible_slice_goes_dense :
    K1._getitem (fun _ _ _ => Except.ok ()) slice04 slice04 []
      = Except.ok (GetitemOk.denseResult ()) ∧
    K1._getitem (ρ := Unit)
        (fun _ _ _ => Except.error (PyErr.indexError "dense failed"))
        slice04 slice04 []
      = Except.error (PyErr.typeError "does not accept slices with steps.") :=
  ⟨rfl, rfl⟩

/-- Claim C10: in the multi-output branch, whenever the dense-delegation
fallback raises — whatever the exception `e`, including one raised while
materializing `covar_mat` itself — `_getitem` raises a `TypeError` whose
message is one of the branch's two fixed strings; the original exception `e` is
never the one propagated. -/
theorem multiout_dense_failure_raises_typeerror [Inhabited α]
    (K : KernelOp α τ β)
    (dg : IndexArg → IndexArg → List IndexArg → Except PyErr ρ)
    (row_index col_index : IndexArg) (batch_indices : List IndexArg) (e : PyErr)
    (hmult : K.num_outputs_per_input.1 ≠ 1 ∨ K.num_outputs_per_input.2 ≠ 1)
    (hfail : dg row_index col_index batch_indices = Except.error e) :
    ∃ m, K._getitem dg row_index col_index batch_indices
        = Except.error (PyErr.typeError m)
      ∧ (m = "does not accept slices with steps."
        ∨ m = "does not accept non-slice indices.") := by
  unfold KernelOp._getitem
  rw [if_pos hmult]
  cases row_index with
  | tensorIdx t =>
    cases col_index with
    | slice cs => exact ⟨_, by simp [hfail], Or.inr rfl⟩
    | tensorIdx t2 => exact ⟨_, by simp [hfail], Or.inr rfl⟩
  | slice rs =>
    cases col_index with
    | tensorIdx t2 => exact ⟨_, by simp [hfail], Or.inr rfl⟩
    | slice cs =>
      have hstep : (if rs.step.isSome then rs.step else some 1).isSome := by
        cases h : rs.step <;> simp [h]
      refine ⟨_, ?_, Or.inl rfl⟩
      simp only []
      rw [if_pos (Or.inl hstep), hfail]

theorem multiout_dense_failure_raises_typeerror_witness :
    ∃ m, K1._getitem (ρ := Unit)
        (fun _ _ _ => Except.error (PyErr.indexError "boom"))
        slice04 slice04 [] = Except.error (PyErr.typeError m)
      ∧ (m = "does not accept slices with steps."
        ∨ m = "does not accept non-slice indices.") :=
  multiout_dense_failure_raises_typeerror K1
    (fun _ _ _ => Except.error (PyErr.indexError "boom"))
    slice04 slice04 [] (PyErr.indexError "boom") (by decide) rfl

/-- A unit-multiplicity operator whose row and column point sets are easy to
tell apart, used to exhibit the batch-fallback misindexing of `_getitem`. -/
def K8 : KernelOp ℚ Unit Unit :=
  { x1 := [1, 2]
    x2 := [10, 20]
    covar_func := mulCovar
    tensor_params := ()
    nontensor_params := ()
    num_outputs_per_input := (1, 1) }

/-- The full slice `[:]`. -/
def fullSlice : IndexArg := IndexArg.slice ⟨none, none, none⟩

/-- Claim C8 (code bug): in the `IndexError` fallback of `_getitem` (reached
here because a batch index is supplied to `K8`, whose point sets carry no batch
dimensions), a non-slice batch index does raise the explicit `RuntimeError`
(first conjunct, as the claim states) — but when all batch indices are slices
the path silently misindexes: asking for rows `[0:1]` and columns `[1:2]`
returns a sub-operator whose column set was sliced with the ROW index (source
line 293), namely `[10]`, although the column slice of `x2 = [10, 20]` selects
`[20]` (second and third conjuncts). -/
theorem getitem_batch_fallback_misindex :
    K8._getitem (ρ := Unit) (fun _ _ _ => Except.ok ()) fullSlice fullSlice
        [IndexArg.tensorIdx [0]]
      = Except.error (PyErr.runtimeError
          "Attempting to tensor index a non-batch matrix's batch dimensions.") ∧
    K8._getitem (ρ := Unit) (fun _ _ _ => Except.ok ())
        (IndexArg.slice ⟨some 0, some 1, none⟩)
        (IndexArg.slice ⟨some 1, some 2, none⟩) [fullSlice]
      = Except.ok (GetitemOk.subOperator [1] { K8 with x1 := [1], x2 := [10] }) ∧
    applyIndexArg K8.x2 (IndexArg.slice ⟨some 1, some 2, none⟩) = [20] ∧
    ([10] : List ℚ) ≠ [20] :=
  ⟨rfl, rfl, rfl, by decide⟩

/-- A unit-multiplicity operator over the product kernel with `x1 = x2`, used to
witness Claim C3. -/
def K3 : KernelOp ℚ Unit Unit :=
  { x1 := [1, 2]
    x2 := [1, 2]
    covar_func := mulCovar
    tensor_params := ()
    nontensor_params := ()
    num_outputs_per_input := (1, 1) }

theorem kernel_diag_correct_witness :
    (K3._diagonal.getD 0 0 = matGet K3.covar_mat 0 0) ∧
    (accessN (fun _ => K3._diagonal) 3 none).2.2 ≤ 1 :=
  ⟨(kernel_diag_correct K3 (· * ·) mulCovar_pairwise rfl rfl).1 0 (by decide),
    ((kernel_diag_correct K3 (· * ·) mulCovar_pairwise rfl rfl).2 3).1⟩

/-! ### Shape-level model of the constructor (source `__init__`, lines 95-174)

Tensors carry a shape (a left-to-right list of dimension sizes, as in torch)
and a total indexing function, so both the broadcast computation and the
element-preservation of `expand` can be stated. -/

/-- One step of right-aligned broadcasting: two dimension sizes are compatible
when they are equal or one of them is `1`. -/
def broadcastDim (a b : Nat) : Option Nat :=
  if a = b then some a else if a = 1 then some b else if b = 1 then some a else none

/-- Broadcasting of two shapes given with their dimensions reversed
(so that the right-aligned rule becomes left-aligned structural recursion). -/
def broadcastRev : List Nat → List Nat → Option (List Nat)
  | [], ys => some ys
  | x :: xs, [] => some (x :: xs)
  | x :: xs, y :: ys =>
    match broadcastDim x y, broadcastRev xs ys with
    | some d, some rest => some (d :: rest)
    | _, _ => none

/-- `torch.broadcast_shapes` for two shapes: right-aligned dimension matching,
`none` when the shapes are incompatible (torch raises `RuntimeError`). -/
def broadcastShapesTwo (s1 s2 : List Nat) : Option (List Nat) :=
  (broadcastRev s1.reverse s2.reverse).map List.reverse

/-- `torch.broadcast_shapes(*shapes)` over a list of shapes. -/
def broadcast_shapes (ss : List (List Nat)) : Option (List Nat) :=
  ss.foldl (fun acc s => acc.bind (fun a => broadcastShapesTwo a s)) (some [])

/-- `shape[:-2]` — the batch part of a shape. -/
def batchOf (s : List Nat) : List Nat := s.take (s.length - 2)

/-- `shape[-2:]` — the trailing two (count/feature, or parameter) dimensions. -/
def lastTwo (s : List Nat) : List Nat := s.drop (s.length - 2)

/-- `shape[-2]` for shapes of rank at least 2. -/
def dimM (s : List Nat) : Nat := (lastTwo s).headD 0

/-- `shape[-1]` for shapes of rank at least 1. -/
def lastDim (s : List Nat) : Nat := s.getLastD 0

/-- A tensor at shape level: its shape together with a total indexing function
(indices are lists of coordinates, one per dimension, left to right). -/
structure PTensor where
  shape : List Nat
  data : List Nat → ℚ

/-- Translating an index into an expanded tensor back to an index into the
original tensor, on reversed (right-aligned) shape and index: coordinates
beyond the original rank are dropped, and a coordinate over a size-1 original
dimension becomes `0`. -/
def contractIdxRev : List Nat → List Nat → List Nat
  | [], _ => []
  | _ :: ss, [] => 0 :: contractIdxRev ss []
  | s :: ss, i :: is => (if s = 1 then 0 else i) :: contractIdxRev ss is

def contractIdx (origShape idx : List Nat) : List Nat :=
  (contractIdxRev origShape.reverse idx.reverse).reverse

/-- `torch.Tensor.expand(*target)`: the result has shape `target` and reads the
original at the right-aligned contracted index (size-1 dimensions of the
original are repeated).  Sizes are validated by the caller (in `__init__` the
target comes out of a successful broadcast); `.contiguous()` (source line 144)
changes no values and is not modelled. -/
def PTensor.expand (t : PTensor) (target : List Nat) : PTensor :=
  ⟨target, fun idx => t.data (contractIdx t.shape idx)⟩

/-- A named argument passed to the constructor: a tensor (participates in batch
broadcasting) or an opaque non-tensor value (carried through unchanged).  The
split `torch.is_tensor(val)` of source lines 103-110 is the discrimination of
this sum. -/
inductive PVal (β : Type) where
  | tensor (t : PTensor)
  | nontensor (v : β)

/-- Source lines 103-110: the tensor-valued named parameters, in order. -/
def tensorParamsOf (params : List (String × PVal β)) : List (String × PTensor) :=
  params.filterMap (fun p => match p.2 with
    | PVal.tensor t => some (p.1, t)
    | PVal.nontensor _ => none)

/-- Source lines 103-110: the non-tensor named parameters, in order. -/
def nontensorParamsOf (params : List (String × PVal β)) : List (String × β) :=
  params.filterMap (fun p => match p.2 with
    | PVal.tensor _ => none
    | PVal.nontensor v => some (p.1, v))

/-- Source lines 153-155: an `int` multiplicity is applied to both rows and
columns, a pair is taken as is. -/
def normNopi : Sum Nat (Nat × Nat) → Nat × Nat
  | Sum.inl n => (n, n)
  | Sum.inr nn => nn

/-- The two `RuntimeError`s of source lines 129-141. -/
inductive InitError where
  | dataShapeIncompat (x1shape x2shape : List Nat)
  | paramShapeIncompat (paramShapes : List (List Nat)) (x1shape x2shape : List Nat)
deriving DecidableEq

/-- A constructed `KernelLinearOperator`, shape level: all stored tensors have
been expanded to the common batch shape. -/
structure KLO (β : Type) where
  x1 : PTensor
  x2 : PTensor
  tensor_params : List (String × PTensor)
  nontensor_params : List (String × β)
  num_outputs_per_input : Nat × Nat
  batch_broadcast_shape : List Nat

/-- `x1.shape` with the count dimension replaced by `1`
(`torch.Size([*x1.shape[:-2], 1, x1.shape[-1]])`, source lines 125-126). -/
def nodataShape (s : List Nat) : List Nat := batchOf s ++ [1, lastDim s]

/-- Source lines 95-174 (`__init__`), shape level: split the named parameters
into tensors and non-tensors, broadcast the batch parts of `x1`, `x2` and every
tensor parameter; on failure re-check `x1`/`x2` alone with their count
dimension replaced by `1` and raise the data-shape error if that fails, the
parameter-shape error (naming every tensor parameter's shape and both data
shapes, as the message at lines 135-141 does) otherwise; on success expand
everything to the common batch shape followed by its own trailing two
dimensions. -/
def KLO.init (x1 x2 : PTensor) (num_outputs_per_input : Sum Nat (Nat × Nat))
    (params : List (String × PVal β)) : Except InitError (KLO β) :=
  let tensor_params := tensorParamsOf params
  match broadcast_shapes
      (batchOf x1.shape :: batchOf x2.shape
        :: tensor_params.map (fun p => batchOf p.2.shape)) with
  | none =>
    match broadcastShapesTwo (nodataShape x1.shape) (nodataShape x2.shape) with
    | none => Except.error (InitError.dataShapeIncompat x1.shape x2.shape)
    | some _ => Except.error (InitError.paramShapeIncompat
        (tensor_params.map (fun p => p.2.shape)) x1.shape x2.shape)
  | some B =>
    Except.ok
      { x1 := x1.expand (B ++ lastTwo x1.shape)
        x2 := x2.expand (B ++ lastTwo x2.shape)
        tensor_params :=
          tensor_params.map (fun p => (p.1, p.2.expand (B ++ lastTwo p.2.shape)))
        nontensor_params := nontensorParamsOf params
        num_outputs_per_input := normNopi num_outputs_per_input
        batch_broadcast_shape := B }

/-- Source lines 333-341 (`_size`): common batch shape followed by
`(x1.shape[-2] * num_outs_per_in_rows, x2.shape[-2] * num_outs_per_in_cols)`. -/
def KLO._size (K : KLO β) : List Nat :=
  K.batch_broadcast_shape ++
    [dimM K.x1.shape * K.num_outputs_per_input.1,
      dimM K.x2.shape * K.num_outputs_per_input.2]

theorem lastTwo_length (s : List Nat) (h : 2 ≤ s.length) : (lastTwo s).length = 2 := by
  simp [lastTwo]; omega

theorem lastTwo_append (B l2 : List Nat) (h : l2.length = 2) : lastTwo (B ++ l2) = l2 := by
  unfold lastTwo
  rw [List.length_append, h, Nat.add_sub_cancel, List.drop_left]

/-- Claim C4: for every successfully constructed operator, `_size` is the common
batch shape (the broadcast of the batch parts of `x1`, `x2` and every tensor
parameter) followed by `(M * rows_per_input, N * cols_per_input)`, where `M` and
`N` are the count dimensions (`shape[-2]`) of the original inputs. -/
theorem size_batch_MN (x1 x2 : PTensor) (nopi : Sum Nat (Nat × Nat))
    (params : List (String × PVal β))
    (h1 : 2 ≤ x1.shape.length) (h2 : 2 ≤ x2.shape.length)
    (K : KLO β) (hok : KLO.init x1 x2 nopi params = Except.ok K) :
    broadcast_shapes (batchOf x1.shape :: batchOf x2.shape
        :: (tensorParamsOf params).map (fun p => batchOf p.2.shape))
      = some K.batch_broadcast_shape ∧
    K._size = K.batch_broadcast_shape
      ++ [dimM x1.shape * (normNopi nopi).1, dimM x2.shape * (normNopi nopi).2] := by
  simp only [KLO.init] at hok
  cases hbs : broadcast_shapes (batchOf x1.shape :: batchOf x2.shape
      :: (tensorParamsOf params).map (fun p => batchOf p.2.shape)) with
  | none =>
    rw [hbs] at hok
    cases hnd : broadcastShapesTwo (nodataShape x1.shape) (nodataShape x2.shape) <;>
      rw [hnd] at hok <;> simp at hok
  | some B =>
    rw [hbs] at hok
    simp only [Except.ok.injEq] at hok
    subst hok
    refine ⟨rfl, ?_⟩
    simp only [KLO._size, PTensor.expand]
    rw [dimM, dimM, lastTwo_append _ _ (lastTwo_length _ h1),
      lastTwo_append _ _ (lastTwo_length _ h2)]
    rfl

/-- Scenario A: 5 row points and 4 column points in 2 dimensions, no batch
dimensions, multiplicity 1. -/
def x4a : PTensor := ⟨[5, 2], fun _ => 0⟩

def x4b : PTensor := ⟨[4, 2], fun _ => 0⟩

def K4 : KLO Unit :=
  { x1 := x4a.expand ([] ++ lastTwo x4a.shape)
    x2 := x4b.expand ([] ++ lastTwo x4b.shape)
    tensor_params := []
    nontensor_params := []
    num_outputs_per_input := (1, 1)
    batch_broadcast_shape := [] }

theorem size_batch_MN_witness :
    KLO.init (β := Unit) x4a x4b (Sum.inl 1) [] = Except.ok K4 ∧
    K4._size = [5, 4] := by
  have h := size_batch_MN x4a x4b (Sum.inl 1) [] (by decide) (by decide) K4 rfl
  exact ⟨rfl, by rw [h.2]; rfl⟩

/-- Claim C5: when the batch shapes of the point sets and the tensor parameters
fail to broadcast together, construction fails eagerly (no operator value is
produced), with the data-shape error naming both point-set shapes exactly when
the two shapes with their count dimension replaced by `1` are incompatible on
their own, and the parameter-shape error (naming the tensor parameters' shapes)
otherwise. -/
theorem init_eager_shape_errors (x1 x2 : PTensor) (nopi : Sum Nat (Nat × Nat))
    (params : List (String × PVal β))
    (hfail : broadcast_shapes (batchOf x1.shape :: batchOf x2.shape
        :: (tensorParamsOf params).map (fun p => batchOf p.2.shape)) = none) :
    (∀ K, KLO.init x1 x2 nopi params ≠ Except.ok K) ∧
    (broadcastShapesTwo (nodataShape x1.shape) (nodataShape x2.shape) = none →
      KLO.init x1 x2 nopi params
        = Except.error (InitError.dataShapeIncompat x1.shape x2.shape)) ∧
    (∀ B, broadcastShapesTwo (nodataShape x1.shape) (nodataShape x2.shape) = some B →
      KLO.init x1 x2 nopi params
        = Except.error (InitError.paramShapeIncompat
            ((tensorParamsOf params).map (fun p => p.2.shape)) x1.shape x2.shape)) := by
  simp only [KLO.init, hfail]
  refine ⟨?_, ?_, ?_⟩
  · intro K
    cases hnd : broadcastShapesTwo (nodataShape x1.shape) (nodataShape x2.shape) <;>
      simp
  · intro hnd; rw [hnd]
  · intro B hnd; rw [hnd]

/-- Two point sets whose batch dimensions (`2` vs `3`) cannot broadcast. -/
def x5a : PTensor := ⟨[2, 5, 3], fun _ => 0⟩

def x5b : PTensor := ⟨[3, 4, 3], fun _ => 0⟩

/-- Two broadcast-compatible point sets and a tensor parameter whose batch
dimension (`3`) is incompatible with theirs (`2`). -/
def x5c : PTensor := ⟨[2, 5, 3], fun _ => 0⟩

def x5d : PTensor := ⟨[2, 4, 3], fun _ => 0⟩

def p5 : PTensor := ⟨[3, 1, 1], fun _ => 0⟩

theorem init_eager_shape_errors_witness :
    KLO.init (β := Unit) x5a x5b (Sum.inl 1) []
      = Except.error (InitError.dataShapeIncompat [2, 5, 3] [3, 4, 3]) ∧
    KLO.init (β := Unit) x5c x5d (Sum.inl 1) [("p", PVal.tensor p5)]
      = Except.error (InitError.paramShapeIncompat [[3, 1, 1]] [2, 5, 3] [2, 4, 3]) :=
  ⟨(init_eager_shape_errors x5a x5b (Sum.inl 1) [] (by decide)).2.1 (by decide),
    (init_eager_shape_errors x5c x5d (Sum.inl 1) [("p", PVal.tensor p5)]
      (by decide)).2.2 [2, 1, 3] (by decide)⟩

/-! ### Broadcast-compatibility facts used for the expansion invariant (C7) -/

/-- `compatRevB a b`: shape `a` broadcasts into shape `b` (both reversed):
`a` is no longer than `b` and each dimension of `a` is `1` or equals the
corresponding dimension of `b`. -/
def compatRevB : List Nat → List Nat → Bool
  | [], _ => true
  | _ :: _, [] => false
  | a :: as, b :: bs => (a == 1 || a == b) && compatRevB as bs

theorem compatRevB_refl : ∀ l : List Nat, compatRevB l l = true
  | [] => rfl
  | a :: as => by simp [compatRevB, compatRevB_refl as]

theorem compatRevB_trans : ∀ (a b c : List Nat), compatRevB a b = true →
    compatRevB b c = true → compatRevB a c = true
  | [], _, _, _, _ => rfl
  | _ :: _, [], _, h, _ => by simp [compatRevB] at h
  | _ :: _, _ :: _, [], _, h2 => by simp [compatRevB] at h2
  | x :: xs, y :: ys, z :: zs, h1, h2 => by
    simp only [compatRevB, Bool.and_eq_true, Bool.or_eq_true, beq_iff_eq] at h1 h2 ⊢
    exact ⟨by omega, compatRevB_trans xs ys zs h1.2 h2.2⟩

theorem broadcastDim_left (a b d : Nat) (h : broadcastDim a b = some d) :
    a = 1 ∨ a = d := by
  unfold broadcastDim at h
  split_ifs at h with h1 h2 h3 <;> simp only [Option.some.injEq] at h <;> omega

theorem broadcastDim_right (a b d : Nat) (h : broadcastDim a b = some d) :
    b = 1 ∨ b = d := by
  unfold broadcastDim at h
  split_ifs at h with h1 h2 h3 <;> simp only [Option.some.injEq] at h <;> omega

theorem broadcastRev_left : ∀ (a b r : List Nat), broadcastRev a b = some r →
    compatRevB a r = true
  | [], _, _, _ => rfl
  | x :: xs, [], r, h => by
    simp only [broadcastRev, Option.some.injEq] at h
    subst h; exact compatRevB_refl _
  | x :: xs, y :: ys, r, h => by
    simp only [broadcastRev] at h
    cases hd : broadcastDim x y with
    | none => rw [hd] at h; simp at h
    | some d =>
      rw [hd] at h
      cases hr : broadcastRev xs ys with
      | none => rw [hr] at h; simp at h
      | some rest =>
        rw [hr] at h
        simp only [Option.some.injEq] at h
        subst h
        simp only [compatRevB, Bool.and_eq_true, Bool.or_eq_true, beq_iff_eq]
        exact ⟨broadcastDim_left x y d hd, broadcastRev_left xs ys rest hr⟩

theorem broadcastRev_right : ∀ (a b r : List Nat), broadcastRev a b = some r →
    compatRevB b r = true
  | [], b, r, h => by
    simp only [broadcastRev, Option.some.injEq] at h
    subst h; exact compatRevB_refl _
  | _ :: _, [], _, _ => rfl
  | x :: xs, y :: ys, r, h => by
    simp only [broadcastRev] at h
    cases hd : broadcastDim x y with
    | none => rw [hd] at h; simp at h
    | some d =>
      rw [hd] at h
      cases hr : broadcastRev xs ys with
      | none => rw [hr] at h; simp at h
      | some rest =>
        rw [hr] at h
        simp only [Option.some.injEq] at h
        subst h
        simp only [compatRevB, Bool.and_eq_true, Bool.or_eq_true, beq_iff_eq]
        exact ⟨broadcastDim_right x y d hd, broadcastRev_right xs ys rest hr⟩

theorem broadcastShapesTwo_left (s1 s2 r : List Nat)
    (h : broadcastShapesTwo s1 s2 = some r) :
    compatRevB s1.reverse r.reverse = true := by
  unfold broadcastShapesTwo at h
  cases hb : broadcastRev s1.reverse s2.reverse with
  | none => rw [hb] at h; simp at h
  | some rr =>
    rw [hb] at h
    have h2 : rr.reverse = r := by simpa using h
    subst h2
    rw [List.reverse_reverse]
    exact broadcastRev_left _ _ _ hb

theorem broadcastShapesTwo_right (s1 s2 r : List Nat)
    (h : broadcastShapesTwo s1 s2 = some r) :
    compatRevB s2.reverse r.reverse = true := by
  unfold broadcastShapesTwo at h
  cases hb : broadcastRev s1.reverse s2.reverse with
  | none => rw [hb] at h; simp at h
  | some rr =>
    rw [hb] at h
    have h2 : rr.reverse = r := by simpa using h
    subst h2
    rw [List.reverse_reverse]
    exact broadcastRev_right _ _ _ hb

theorem broadcast_foldl_none : ∀ ss : List (List Nat),
    ss.foldl (fun acc s => acc.bind (fun a => broadcastShapesTwo a s)) none = none
  | [] => rfl
  | _ :: rest => broadcast_foldl_none rest

theorem broadcast_foldl_compat : ∀ (ss : List (List Nat)) (a B : List Nat),
    ss.foldl (fun acc s => acc.bind (fun x => broadcastShapesTwo x s)) (some a)
      = some B →
    compatRevB a.reverse B.reverse = true ∧
      ∀ s ∈ ss, compatRevB s.reverse B.reverse = true
  | [], a, B, h => by
    simp only [List.foldl_nil, Option.some.injEq] at h
    subst h
    exact ⟨compatRevB_refl _, by simp⟩
  | s :: rest, a, B, h => by
    simp only [List.foldl_cons] at h
    have hstep : (some a).bind (fun x => broadcastShapesTwo x s)
        = broadcastShapesTwo a s := rfl
    rw [hstep] at h
    cases hab : broadcastShapesTwo a s with
    | none =>
      rw [hab, broadcast_foldl_none] at h
      exact absurd h (by simp)
    | some a' =>
      rw [hab] at h
      obtain ⟨h1, h2⟩ := broadcast_foldl_compat rest a' B h
      refine ⟨compatRevB_trans _ _ _ (broadcastShapesTwo_left a s a' hab) h1, ?_⟩
      intro t ht
      rcases List.mem_cons.mp ht with rfl | ht
      · exact compatRevB_trans _ _ _ (broadcastShapesTwo_right a t a' hab) h1
      · exact h2 t ht

theorem broadcast_shapes_compat (ss : List (List Nat)) (B : List Nat)
    (h : broadcast_shapes ss = some B) :
    ∀ s ∈ ss, compatRevB s.reverse B.reverse = true :=
  (broadcast_foldl_compat ss [] B h).2

theorem compatRevB_append (p : List Nat) {a b : List Nat}
    (h : compatRevB a b = true) : compatRevB (p ++ a) (p ++ b) = true := by
  induction p with
  | nil => exact h
  | cons x xs ih => simp [compatRevB, ih]

/-- `idx` is a valid (in-bounds) index for `shape`. -/
def validIdx (idx shape : List Nat) : Prop := List.Forall₂ (· < ·) idx shape

/-- `expanded` only repeats `orig`: every in-bounds read of `expanded` returns a
value of `orig` at an in-bounds index that agrees with the right-aligned tail of
the requested index at every dimension where `orig` is not of size 1 (so within
`orig`'s own extent no value is changed; extra extent only repeats values along
the size-1 dimensions). -/
def onlyRepeats (orig expanded : PTensor) : Prop :=
  ∀ idx, validIdx idx expanded.shape →
    ∃ idx₀, validIdx idx₀ orig.shape ∧
      expanded.data idx = orig.data idx₀ ∧
      List.Forall₂ (fun (p : Nat × Nat) (q : Nat) => p.2 = 1 ∨ p.1 = q)
        (idx₀.reverse.zip orig.shape.reverse) (idx.reverse.take orig.shape.length)

theorem contractIdxRev_spec : ∀ (o t i : List Nat),
    compatRevB o t = true → List.Forall₂ (· < ·) i t →
    List.Forall₂ (· < ·) (contractIdxRev o i) o ∧
    List.Forall₂ (fun (p : Nat × Nat) (q : Nat) => p.2 = 1 ∨ p.1 = q)
      ((contractIdxRev o i).zip o) (i.take o.length)
  | [], _, _, _, _ => ⟨List.Forall₂.nil, by simp [contractIdxRev]⟩
  | s :: ss, t, i, hc, hf => by
    cases t with
    | nil => simp [compatRevB] at hc
    | cons b bs =>
      cases i with
      | nil => cases hf
      | cons x xs =>
        simp only [compatRevB, Bool.and_eq_true, Bool.or_eq_true, beq_iff_eq] at hc
        obtain ⟨hhd, htl⟩ := hc
        cases hf with
        | cons hx hxs =>
          have ih := contractIdxRev_spec ss bs xs htl hxs
          constructor
          · refine List.Forall₂.cons ?_ ih.1
            by_cases hs : s = 1
            · simp [hs]
            · have hsb : s = b := by omega
              subst hsb
              simpa [hs] using hx
          · simp only [contractIdxRev, List.length_cons, List.take_succ_cons,
              List.zip_cons_cons]
            refine List.Forall₂.cons ?_ ih.2
            by_cases hs : s = 1
            · exact Or.inl hs
            · exact Or.inr (by simp [hs])

/-- `expand` to any broadcast-compatible target shape only repeats the original
tensor's elements. -/
theorem expand_onlyRepeats (t : PTensor) (target : List Nat)
    (hc : compatRevB t.shape.reverse target.reverse = true) :
    onlyRepeats t (t.expand target) := by
  intro idx hv
  have hvr : List.Forall₂ (· < ·) idx.reverse target.reverse :=
    List.forall₂_reverse_iff.mpr hv
  have hspec := contractIdxRev_spec t.shape.reverse target.reverse idx.reverse hc hvr
  refine ⟨contractIdx t.shape idx, ?_, rfl, ?_⟩
  · rw [validIdx, ← List.forall₂_reverse_iff]
    simpa [contractIdx] using hspec.1
  · simpa [contractIdx, List.length_reverse] using hspec.2

/-- Claim C7: every successful construction stores `x1`, `x2` and each tensor
parameter expanded to the identical common batch shape followed by its own
trailing two dims, and each expansion only repeats elements along size-1
dimensions, changing no element values.  Every derived instance (slice,
transpose, permute, unsqueeze) is built by this same constructor, so the
invariant is re-established for all of them. -/
theorem init_expands_all (x1 x2 : PTensor) (nopi : Sum Nat (Nat × Nat))
    (params : List (String × PVal β))
    (K : KLO β) (hok : KLO.init x1 x2 nopi params = Except.ok K) :
    K.x1.shape = K.batch_broadcast_shape ++ lastTwo x1.shape ∧
    K.x2.shape = K.batch_broadcast_shape ++ lastTwo x2.shape ∧
    List.Forall₂ (fun (p q : String × PTensor) =>
        p.1 = q.1 ∧ p.2.shape = K.batch_broadcast_shape ++ lastTwo q.2.shape)
      K.tensor_params (tensorParamsOf params) ∧
    onlyRepeats x1 K.x1 ∧
    onlyRepeats x2 K.x2 ∧
    List.Forall₂ (fun (p q : String × PTensor) => onlyRepeats q.2 p.2)
      K.tensor_params (tensorParamsOf params) := by
  simp only [KLO.init] at hok
  cases hbs : broadcast_shapes (batchOf x1.shape :: batchOf x2.shape
      :: (tensorParamsOf params).map (fun p => batchOf p.2.shape)) with
  | none =>
    rw [hbs] at hok
    cases hnd : broadcastShapesTwo (nodataShape x1.shape) (nodataShape x2.shape) <;>
      rw [hnd] at hok <;> simp at hok
  | some B =>
    rw [hbs] at hok
    simp only [Except.ok.injEq] at hok
    subst hok
    have hcompat := broadcast_shapes_compat _ _ hbs
    have key : ∀ t : PTensor, compatRevB (batchOf t.shape).reverse B.reverse = true →
        onlyRepeats t (t.expand (B ++ lastTwo t.shape)) := by
      intro t hbt
      apply expand_onlyRepeats
      have hsplit : t.shape = batchOf t.shape ++ lastTwo t.shape :=
        (List.take_append_drop _ _).symm
      nth_rewrite 1 [hsplit]
      rw [List.reverse_append, List.reverse_append]
      exact compatRevB_append _ hbt
    refine ⟨rfl, rfl, ?_, ?_, ?_, ?_⟩
    · rw [List.forall₂_map_left_iff]
      refine List.forall₂_same.mpr ?_
      intro p _
      exact ⟨rfl, rfl⟩
    · exact key x1 (hcompat _ (List.mem_cons_self _ _))
    · exact key x2 (hcompat _ (List.mem_cons.mpr
        (Or.inr (List.mem_cons_self _ _))))
    · rw [List.forall₂_map_left_iff]
      refine List.forall₂_same.mpr ?_
      intro p hp
      exact key p.2 (hcompat _ (List.mem_cons.mpr (Or.inr (List.mem_cons.mpr
        (Or.inr (List.mem_map.mpr ⟨p, hp, rfl⟩))))))

/-- Witness data for C7: `x1` has batch shape `[1]`, `x2` has batch shape `[3]`,
the `lengthscale` parameter has an empty batch shape; the common batch shape is
`[3]`, so `x1` and the parameter are genuinely repeated. -/
def x1c : PTensor := ⟨[1, 2, 2], fun idx => (idx.foldl (fun a b => 10 * a + b) 0 : ℚ)⟩

def x2c : PTensor := ⟨[3, 1, 2], fun idx => (idx.foldl (fun a b => 10 * a + b) 0 : ℚ)⟩

def p7 : PTensor := ⟨[1, 2], fun idx => (idx.foldl (fun a b => 10 * a + b) 0 : ℚ)⟩

def params7 : List (String × PVal Unit) := [("lengthscale", PVal.tensor p7)]

def K7 : KLO Unit :=
  { x1 := x1c.expand ([3] ++ lastTwo x1c.shape)
    x2 := x2c.expand ([3] ++ lastTwo x2c.shape)
    tensor_params := [("lengthscale", p7.expand ([3] ++ lastTwo p7.shape))]
    nontensor_params := []
    num_outputs_per_input := (1, 1)
    batch_broadcast_shape := [3] }

theorem init_expands_all_witness :
    K7.x1.shape = [3, 2, 2] ∧ K7.x2.shape = [3, 1, 2] ∧
    onlyRepeats x1c K7.x1 ∧
    K7.x1.data [2, 1, 0] = x1c.data [0, 1, 0] := by
  obtain ⟨hs1, hs2, _, hr1, _, _⟩ :=
    init_expands_all x1c x2c (Sum.inl 1) params7 K7 rfl
  exact ⟨by rw [hs1]; rfl, by rw [hs2]; rfl, hr1, rfl⟩

end KernelLO
